import Mathlib

/-!
# Verification of the `bounty` static file server (`src/Bounty/src/main.rs`)

This file gives a shallow embedding of the request-handling pipeline of the
Rust program and proves/refutes the frozen claims about it.

Modelling conventions:
* Rust `str`/`String`/`OsStr` values are byte sequences, `List Nat`
  (each element `< 256` on well-formed inputs), because the program's
  slicing, percent-coding and UTF-8 handling all work at the byte level.
* The filesystem is a pure value (`FS`): a current working directory
  (as a canonical component list) together with a finite list of entries
  keyed by canonical component paths.  OS primitives used by the program
  (`canonicalize`, `is_dir`, `is_file`, `fs::read`, `WalkDir` children)
  are modelled as pure functions over `FS`.  Symbolic links are not part
  of the model; `canonicalize` resolves `.` and `..` against existing
  entries, failing when a component does not exist, as POSIX `realpath`
  does on link-free trees.
* Fallible IO is modelled with `Option`/explicit result types; a Rust
  `?`-propagated error becomes the `HResult.ioErr` outcome and a Rust
  panic becomes `HResult.panicked`.
-/

namespace Bounty

/-- Bytes of an ASCII string literal.  Only used with ASCII literals, for
which `Char.toNat` coincides with the single UTF-8 byte. -/
def ascii (s : String) : List Nat := s.data.map Char.toNat

/-! ## Path codec (`encode_path` / `decode_url_encoded`)

`encode_path` is `utf8_percent_encode(path, NON_ALPHANUMERIC)`: every byte
that is not an ASCII letter or digit is written `%XX` with uppercase hex.
`decode_url_encoded` is `percent_decode(path.as_bytes()).decode_utf8_lossy()`:
`%XX` triples become bytes, malformed escapes pass through unchanged, and
the byte result is decoded as UTF-8 with replacement characters. -/

/-- Is `b` the byte of an ASCII letter or digit?  (`NON_ALPHANUMERIC`
percent-encodes exactly the other bytes.) -/
def isAlnumByte (b : Nat) : Bool :=
  (0x30 ≤ b && b ≤ 0x39) || (0x41 ≤ b && b ≤ 0x5A) || (0x61 ≤ b && b ≤ 0x7A)

/-- Uppercase hexadecimal digit byte for a nibble. -/
def hexDigitUpper (n : Nat) : Nat :=
  if n < 10 then 0x30 + n else 0x41 + (n - 10)

/-- Percent-encoding of one byte under the `NON_ALPHANUMERIC` ascii set. -/
def encodeByte (b : Nat) : List Nat :=
  if isAlnumByte b then [b] else [0x25, hexDigitUpper (b / 16), hexDigitUpper (b % 16)]

/-- `encode_path`: percent-encode every non-alphanumeric byte. -/
def encode_path : List Nat → List Nat
  | [] => []
  | b :: rest => encodeByte b ++ encode_path rest

/-- Value of a hexadecimal digit byte (the `percent-encoding` crate accepts
both cases when decoding). -/
def hexVal (b : Nat) : Option Nat :=
  if 0x30 ≤ b && b ≤ 0x39 then some (b - 0x30)
  else if 0x41 ≤ b && b ≤ 0x46 then some (b - 0x41 + 10)
  else if 0x61 ≤ b && b ≤ 0x66 then some (b - 0x61 + 10)
  else none

/-- One step of `percent_decode`, abstracted over the handling of the
remaining input; each step consumes at least one byte. -/
def pdStep (recur : List Nat → List Nat) : List Nat → List Nat
  | [] => []
  | x :: xs =>
    if x = 0x25 then
      match xs with
      | a :: b :: rest =>
        match hexVal a, hexVal b with
        | some hi, some lo => (16 * hi + lo) :: recur rest
        | _, _ => x :: recur xs
      | _ => x :: recur xs
    else x :: recur xs

/-- Iterate `pdStep`; fuel equal to the input length always suffices. -/
def percentDecodeF : Nat → List Nat → List Nat
  | 0 => fun _ => []
  | fuel + 1 => pdStep (percentDecodeF fuel)

/-- `percent_decode`: a `%` followed by two hex digits becomes the byte they
denote; a `%` not followed by two hex digits passes through unchanged, and
decoding resumes at the byte right after the `%`. -/
def percentDecode (l : List Nat) : List Nat := percentDecodeF l.length l

/-- Is `b` a UTF-8 continuation byte? -/
def isCont (b : Nat) : Bool := 0x80 ≤ b && b ≤ 0xBF

/-- The UTF-8 bytes of U+FFFD REPLACEMENT CHARACTER. -/
def replacementBytes : List Nat := [0xEF, 0xBF, 0xBD]

/-- One step of `String::from_utf8_lossy` / `decode_utf8_lossy` at the
byte level, abstracted over the handling of the remaining input:
well-formed scalar sequences pass through; on a malformed sequence the
maximal valid prefix is replaced by U+FFFD and decoding resumes at the
offending byte (the "substitution of maximal subparts" rule). -/
def utf8Step (recur : List Nat → List Nat) : List Nat → List Nat
  | [] => []
  | b :: rest =>
    if b ≤ 0x7F then b :: recur rest
    else if 0xC2 ≤ b && b ≤ 0xDF then
      match rest with
      | [] => replacementBytes
      | b2 :: r2 =>
        if isCont b2 then b :: b2 :: recur r2
        else replacementBytes ++ recur rest
    else if b = 0xE0 then
      match rest with
      | [] => replacementBytes
      | b2 :: r2 =>
        if 0xA0 ≤ b2 && b2 ≤ 0xBF then
          match r2 with
          | [] => replacementBytes
          | b3 :: r3 =>
            if isCont b3 then b :: b2 :: b3 :: recur r3
            else replacementBytes ++ recur r2
        else replacementBytes ++ recur rest
    else if (0xE1 ≤ b && b ≤ 0xEC) || (0xEE ≤ b && b ≤ 0xEF) then
      match rest with
      | [] => replacementBytes
      | b2 :: r2 =>
        if isCont b2 then
          match r2 with
          | [] => replacementBytes
          | b3 :: r3 =>
            if isCont b3 then b :: b2 :: b3 :: recur r3
            else replacementBytes ++ recur r2
        else replacementBytes ++ recur rest
    else if b = 0xED then
      match rest with
      | [] => replacementBytes
      | b2 :: r2 =>
        if 0x80 ≤ b2 && b2 ≤ 0x9F then
          match r2 with
          | [] => replacementBytes
          | b3 :: r3 =>
            if isCont b3 then b :: b2 :: b3 :: recur r3
            else replacementBytes ++ recur r2
        else replacementBytes ++ recur rest
    else if b = 0xF0 then
      match rest with
      | [] => replacementBytes
      | b2 :: r2 =>
        if 0x90 ≤ b2 && b2 ≤ 0xBF then
          match r2 with
          | [] => replacementBytes
          | b3 :: r3 =>
            if isCont b3 then
              match r3 with
              | [] => replacementBytes
              | b4 :: r4 =>
                if isCont b4 then b :: b2 :: b3 :: b4 :: recur r4
                else replacementBytes ++ recur r3
            else replacementBytes ++ recur r2
        else replacementBytes ++ recur rest
    else if 0xF1 ≤ b && b ≤ 0xF3 then
      match rest with
      | [] => replacementBytes
      | b2 :: r2 =>
        if isCont b2 then
          match r2 with
          | [] => replacementBytes
          | b3 :: r3 =>
            if isCont b3 then
              match r3 with
              | [] => replacementBytes
              | b4 :: r4 =>
                if isCont b4 then b :: b2 :: b3 :: b4 :: recur r4
                else replacementBytes ++ recur r3
            else replacementBytes ++ recur r2
        else replacementBytes ++ recur rest
    else if b = 0xF4 then
      match rest with
      | [] => replacementBytes
      | b2 :: r2 =>
        if 0x80 ≤ b2 && b2 ≤ 0x8F then
          match r2 with
          | [] => replacementBytes
          | b3 :: r3 =>
            if isCont b3 then
              match r3 with
              | [] => replacementBytes
              | b4 :: r4 =>
                if isCont b4 then b :: b2 :: b3 :: b4 :: recur r4
                else replacementBytes ++ recur r3
            else replacementBytes ++ recur r2
        else replacementBytes ++ recur rest
    else replacementBytes ++ recur rest

/-- Iterate `utf8Step`; each step consumes between one and four bytes, so
fuel equal to the input length always suffices. -/
def utf8LossyF : Nat → List Nat → List Nat
  | 0 => fun _ => []
  | fuel + 1 => utf8Step (utf8LossyF fuel)

/-- `String::from_utf8_lossy` / `decode_utf8_lossy` at the byte level. -/
def utf8Lossy (l : List Nat) : List Nat := utf8LossyF l.length l

/-- One step of UTF-8 validity checking, with the same case structure as
`utf8Step` (one case per scalar-length class of the lead byte). -/
def validStep (recur : List Nat → Bool) : List Nat → Bool
  | [] => true
  | b :: rest =>
    if b ≤ 0x7F then recur rest
    else if 0xC2 ≤ b && b ≤ 0xDF then
      match rest with
      | [] => false
      | b2 :: r2 => isCont b2 && recur r2
    else if b = 0xE0 then
      match rest with
      | b2 :: b3 :: r3 => (0xA0 ≤ b2 && b2 ≤ 0xBF) && isCont b3 && recur r3
      | _ => false
    else if (0xE1 ≤ b && b ≤ 0xEC) || (0xEE ≤ b && b ≤ 0xEF) then
      match rest with
      | b2 :: b3 :: r3 => isCont b2 && isCont b3 && recur r3
      | _ => false
    else if b = 0xED then
      match rest with
      | b2 :: b3 :: r3 => (0x80 ≤ b2 && b2 ≤ 0x9F) && isCont b3 && recur r3
      | _ => false
    else if b = 0xF0 then
      match rest with
      | b2 :: b3 :: b4 :: r4 =>
        (0x90 ≤ b2 && b2 ≤ 0xBF) && isCont b3 && isCont b4 && recur r4
      | _ => false
    else if 0xF1 ≤ b && b ≤ 0xF3 then
      match rest with
      | b2 :: b3 :: b4 :: r4 => isCont b2 && isCont b3 && isCont b4 && recur r4
      | _ => false
    else if b = 0xF4 then
      match rest with
      | b2 :: b3 :: b4 :: r4 =>
        (0x80 ≤ b2 && b2 ≤ 0x8F) && isCont b3 && isCont b4 && recur r4
      | _ => false
    else false

/-- Iterate `validStep`. -/
def isValidUTF8F : Nat → List Nat → Bool
  | 0 => fun l => l.isEmpty
  | fuel + 1 => validStep (isValidUTF8F fuel)

/-- Validity of a byte sequence as UTF-8. -/
def isValidUTF8 (l : List Nat) : Bool := isValidUTF8F l.length l

/-- `decode_url_encoded`: percent-decode the bytes, then decode them as
UTF-8, lossily. -/
def decode_url_encoded (path : List Nat) : List Nat :=
  utf8Lossy (percentDecode path)

/-! ## Request line parser (`parse_request_line`)

`handle_connection` reads at most 1024 bytes into a zero-initialised
buffer, converts the whole buffer with `String::from_utf8_lossy`, takes the
first line (`lines().next()`, which splits at `\n` and strips a trailing
`\r`), and splits it on whitespace; missing tokens become empty strings. -/

/-- Whitespace bytes recognised by `split_whitespace` within the ASCII
range (HT, LF, VT, FF, CR, SP).  Multi-byte Unicode whitespace plays no
role in any claim and is not modelled. -/
def isWsByte (b : Nat) : Bool := b == 0x20 || (9 ≤ b && b ≤ 13)

/-- Split a byte list at bytes satisfying `p`, dropping empty pieces;
`acc` holds the current token reversed. -/
def splitDrop (p : Nat → Bool) (acc : List Nat) : List Nat → List (List Nat)
  | [] => if acc = [] then [] else [acc.reverse]
  | b :: rest =>
    if p b then
      if acc = [] then splitDrop p [] rest else acc.reverse :: splitDrop p [] rest
    else splitDrop p (b :: acc) rest

/-- `str::split_whitespace` restricted to ASCII whitespace. -/
def splitWhitespace (l : List Nat) : List (List Nat) := splitDrop isWsByte [] l

/-- `str::lines().next().unwrap_or("")`: everything before the first LF,
with one trailing CR stripped when an LF is present. -/
def firstLineOf (s : List Nat) : List Nat :=
  if s.any (· == 10) then
    let t := s.takeWhile (· ≠ 10)
    if t.getLast? = some 13 then t.dropLast else t
  else s

/-- `parse_request_line`: first two whitespace-separated tokens, empty when
absent. -/
def parse_request_line (line : List Nat) : List Nat × List Nat :=
  let toks := splitWhitespace line
  (toks.getD 0 [], toks.getD 1 [])

/-- Rust `&s[1..]` on a string of bytes `s`: `none` models the panic.  It
panics when the string is empty (byte index 1 out of bounds) and when byte
index 1 is not a character boundary, i.e. when the byte after the first is
a UTF-8 continuation byte. -/
def rustSliceFrom1 : List Nat → Option (List Nat)
  | [] => none
  | _ :: [] => some []
  | _ :: b1 :: t => if b1 < 0x80 || 0xC0 ≤ b1 then some (b1 :: t) else none

/-! ## Filesystem model and path sandbox

The filesystem is a pure value.  Entries are keyed by canonical component
lists (no `.`/`..`, names free of separators); the root directory `[]`
always exists.  `canonGo` models POSIX `realpath` on a tree without
symbolic links: components are resolved left to right, `.` is skipped,
`..` pops one component, and every other component must name an existing
entry that is a directory whenever further components remain. -/

/-- One path component (the bytes of a file name, or `.` / `..`). -/
abbrev Name := List Nat

/-- A filesystem entry: a directory or a regular file with contents; an
unreadable file models `fs::read` failing after the existence check. -/
inductive EntryKind where
  | dir : EntryKind
  | file (content : List Nat) (readable : Bool) : EntryKind
deriving DecidableEq

/-- The filesystem: the process working directory (canonical components)
and the entries. -/
structure FS where
  cwd : List Name
  entries : List (List Name × EntryKind)
deriving DecidableEq

/-- Entry stored at canonical path `p`, if any. -/
def lookupFS (fs : FS) (p : List Name) : Option EntryKind :=
  (fs.entries.find? (fun e => e.1 == p)).map (·.2)

/-- The `.` component. -/
def dotComp : Name := [0x2E]

/-- The `..` component. -/
def dotdotComp : Name := [0x2E, 0x2E]

/-- `realpath` walk: resolve the components against the filesystem from
the already-canonical `acc` (every `acc` reached is the root or a verified
existing path).  `none` models the `NotFound`/`NotDir` io error of
`Path::canonicalize`. -/
def canonGo (fs : FS) (acc : List Name) : List Name → Option (List Name)
  | [] => some acc
  | c :: rest =>
    if c = dotComp then canonGo fs acc rest
    else if c = dotdotComp then canonGo fs acc.dropLast rest
    else
      match lookupFS fs (acc ++ [c]), rest with
      | some _, [] => some (acc ++ [c])
      | some .dir, _ => canonGo fs (acc ++ [c]) rest
      | _, _ => none

/-- Split a path string into components (empty pieces dropped, as by
`Path::components`). -/
def pathComps (s : List Nat) : List Name := splitDrop (· == 0x2F) [] s

/-- `Path::canonicalize` of an absolute path string. -/
def canonicalizeStr (fs : FS) (s : List Nat) : Option (List Name) :=
  canonGo fs [] (pathComps s)

/-- Render canonical components as an absolute path string (the form
`std::env::current_dir` returns, without trailing separator). -/
def renderAbs (comps : List Name) : List Nat :=
  comps.foldl (fun acc n => acc ++ 0x2F :: n) []

/-- `Path::join`: an absolute right operand replaces the base, otherwise a
separator and the right operand are appended. -/
def joinPath (base : List Nat) (p : List Nat) : List Nat :=
  if p.head? = some 0x2F then p else base ++ 0x2F :: p

/-- `is_path_within_current_directory`: canonicalize, then component-wise
`Path::starts_with` against the working directory.  `none` models the
propagated io error of `canonicalize`. -/
def isPathWithin (fs : FS) (p : List Nat) : Option Bool :=
  (canonicalizeStr fs p).map (fun c => fs.cwd.isPrefixOf c)

/-- `Path::is_dir` (resolves the path, checks for a directory). -/
def isDirP (fs : FS) (p : List Nat) : Bool :=
  match canonicalizeStr fs p with
  | some c => match lookupFS fs c with | some .dir => true | _ => false
  | none => false

/-- `Path::is_file`. -/
def isFileP (fs : FS) (p : List Nat) : Bool :=
  match canonicalizeStr fs p with
  | some c => match lookupFS fs c with | some (.file _ _) => true | _ => false
  | none => false

/-- `fs::read`: contents of the file the path resolves to; `none` is a
read error. -/
def fsRead (fs : FS) (p : List Nat) : Option (List Nat) :=
  match canonicalizeStr fs p with
  | some c =>
    match lookupFS fs c with
    | some (.file content true) => some content
    | _ => none
  | none => none

/-- `WalkDir::new(dir).min_depth(1).max_depth(1)`: the immediate children
of a canonical directory path, in entry order. -/
def childrenOf (fs : FS) (c : List Name) : List (Name × EntryKind) :=
  fs.entries.filterMap (fun e =>
    if e.1.take c.length = c then
      match e.1.drop c.length with
      | [n] => some (n, e.2)
      | _ => none
    else none)

/-! ## Responses and the connection handler -/

/-- A fully assembled response (status line tail, content type, body). -/
structure Response where
  status : List Nat
  contentType : List Nat
  body : List Nat
deriving DecidableEq

/-- Outcome of handling one connection: a response was written, an io
error was propagated with `?` (aborting `main`), or the handler panicked. -/
inductive HResult where
  | ok (resp : Response)
  | ioErr
  | panicked
deriving DecidableEq

/-- One incoming connection: the raw request bytes and whether writing to
the stream fails. -/
structure Conn where
  request : List Nat
  writeFails : Bool
deriving DecidableEq

/-- `send_response`/`write_all`: an io error on a failing stream,
otherwise the response is delivered. -/
def respond (conn : Conn) (r : Response) : HResult :=
  if conn.writeFails then .ioErr else .ok r

/-- The 404 response of `handle_connection`. -/
def notFoundResp : Response :=
  ⟨ascii "404 Not Found", ascii "text/html", ascii "Not Found"⟩

/-- The 405 response. -/
def methodNotAllowedResp : Response :=
  ⟨ascii "405 Method Not Allowed", ascii "text/html", ascii "Method Not Allowed"⟩

/-- The 403 response. -/
def forbiddenResp : Response :=
  ⟨ascii "403 Forbidden", ascii "text/html", ascii "Forbidden"⟩

/-- The 500 response of `send_file_content`. -/
def internalErrorResp : Response :=
  ⟨ascii "500 Internal Server Error", ascii "text/html", ascii "Internal Server Error"⟩

/-- The PNG signature. -/
def pngMagic : List Nat := [0x89, 0x50, 0x4E, 0x47, 0x0D, 0x0A, 0x1A, 0x0A]

/-- Modelled from the spec: content sniffing by the external `infer` crate
("magic-byte inspection of the first bytes of the body", defaulting "to a
generic octet-stream type when sniffing is inconclusive").  Only the PNG
signature named by the spec is distinguished; no claim depends on other
signatures. -/
def inferMime (content : List Nat) : List Nat :=
  if pngMagic.isPrefixOf content then ascii "image/png"
  else ascii "application/octet-stream"

/-- The HTML body built by `send_directory_listing` for directory `path`
whose canonical form is `c`. -/
def dirListingBody (fs : FS) (path : List Nat) (c : List Name) : List Nat :=
  ascii "<!DOCTYPE html><html><head><meta charset=\"utf-8\"></head><body>"
    ++ ascii "<h1>Directory listing for "
    ++ decode_url_encoded (utf8Lossy path) ++ ascii "</h1>"
    ++ ((childrenOf fs c).map (fun e =>
          let enc := encode_path e.1
          let nm := utf8Lossy e.1
          match e.2 with
          | .dir => ascii "<a href=\"" ++ enc ++ ascii "/\">" ++ nm ++ ascii "/</a><br>"
          | .file _ _ =>
            ascii "<a href=\"" ++ enc ++ ascii "\">" ++ nm ++ ascii "</a><br>")).flatten
    ++ ascii "</body></html>"

/-- `send_directory_listing`: enumerate the children and send a 200 page;
an enumeration error (directory unresolvable) propagates as an io error. -/
def send_directory_listing (fs : FS) (conn : Conn) (path : List Nat) : HResult :=
  match canonicalizeStr fs path with
  | none => .ioErr
  | some c => respond conn ⟨ascii "200 OK", ascii "text/html", dirListingBody fs path c⟩

/-- `send_file_content`: a failed read is answered locally with 500; a
successful read is served with a sniffed content type. -/
def send_file_content (fs : FS) (conn : Conn) (path : List Nat) : HResult :=
  match fsRead fs path with
  | none => respond conn internalErrorResp
  | some content => respond conn ⟨ascii "200 OK", inferMime content, content⟩

/-- The 1024-byte zero-initialised read buffer after `stream.read`. -/
def bufferOf (req : List Nat) : List Nat :=
  req.take 1024 ++ List.replicate (1024 - req.length) 0

/-- The parsed request line of a connection's bytes. -/
def requestLineOf (req : List Nat) : List Nat :=
  firstLineOf (utf8Lossy (bufferOf req))

/-- Parsed method token. -/
def methodOf (req : List Nat) : List Nat := (parse_request_line (requestLineOf req)).1

/-- Parsed target token. -/
def targetOf (req : List Nat) : List Nat := (parse_request_line (requestLineOf req)).2

/-- The percent-decoded target. -/
def decodedTargetOf (req : List Nat) : List Nat := decode_url_encoded (targetOf req)

/-- `if decoded_path == "/" { "" } else { &decoded_path[1..] }`; `none` is
the slicing panic. -/
def resourceOf (req : List Nat) : Option (List Nat) :=
  if decodedTargetOf req = [0x2F] then some []
  else rustSliceFrom1 (decodedTargetOf req)

/-- The raw favicon target. -/
def faviconPath : List Nat := ascii "/favicon.ico"

/-- `handle_connection`: one request, one outcome. -/
def handle_connection (fs : FS) (conn : Conn) : HResult :=
  if targetOf conn.request = faviconPath then respond conn notFoundResp
  else if methodOf conn.request ≠ ascii "GET" then respond conn methodNotAllowedResp
  else
    match resourceOf conn.request with
    | none => .panicked
    | some res =>
      let absolute := joinPath (renderAbs fs.cwd) res
      match isPathWithin fs absolute with
      | none => .ioErr
      | some false => respond conn forbiddenResp
      | some true =>
        if isDirP fs absolute then send_directory_listing fs conn absolute
        else if isFileP fs absolute then send_file_content fs conn absolute
        else respond conn notFoundResp

/-- How the accept loop ended early, if it did. -/
inductive Crash where
  | ioError
  | panicked
deriving DecidableEq

/-- The accept loop of `main`: connections are served strictly in
sequence; `handle_connection(stream)?` propagates any handler error, and a
panic likewise ends the process, so the loop stops at the first failing
connection. -/
def serveLoop (fs : FS) : List Conn → List Response × Option Crash
  | [] => ([], none)
  | c :: rest =>
    match handle_connection fs c with
    | .ok r => ((r :: (serveLoop fs rest).1), (serveLoop fs rest).2)
    | .ioErr => ([], some .ioError)
    | .panicked => ([], some .panicked)

/-! ## Concrete scenarios used as witnesses and counterexamples -/

/-- A root directory `/d` holding the regular file `a.txt` and the
subdirectory `b`. -/
def fsDemo : FS :=
  { cwd := [ascii "d"],
    entries := [([ascii "d"], .dir),
                ([ascii "d", ascii "a.txt"], .file (ascii "hello") true),
                ([ascii "d", ascii "b"], .dir)] }

/-- `GET /` on a healthy stream. -/
def connRootOk : Conn := { request := ascii "GET / HTTP/1.1\r\nHost: x\r\n\r\n", writeFails := false }

/-- `GET /` on a stream whose writes fail. -/
def connRootWriteFail : Conn :=
  { request := ascii "GET / HTTP/1.1\r\nHost: x\r\n\r\n", writeFails := true }

/-- `GET /missing`: no such filesystem entry. -/
def connMissing : Conn := { request := ascii "GET /missing HTTP/1.1\r\n\r\n", writeFails := false }

/-- A request whose first line is empty: both parsed tokens are empty. -/
def connEmptyLine : Conn := { request := ascii "\r\n\r\n", writeFails := false }

/-- A request line carrying a method but no target. -/
def connBareGet : Conn := { request := ascii "GET\r\n\r\n", writeFails := false }

/-- Root `/d` beside a sibling `/e` containing the file `x`. -/
def fsTrav : FS :=
  { cwd := [ascii "d"],
    entries := [([ascii "d"], .dir),
                ([ascii "e"], .dir),
                ([ascii "e", ascii "x"], .file (ascii "secret") true)] }

/-- A traversal target escaping to the existing sibling file `/e/x`. -/
def connTravOut : Conn := { request := ascii "GET /../e/x HTTP/1.1\r\n\r\n", writeFails := false }

/-- A traversal target naming a nonexistent path outside the root. -/
def connTravMissing : Conn :=
  { request := ascii "GET /../../etc/passwd HTTP/1.1\r\n\r\n", writeFails := false }

/-- Root `/ww` beside the sibling `/www` whose name extends `ww` as a
string, with a file `x` inside the sibling. -/
def fsWW : FS :=
  { cwd := [ascii "ww"],
    entries := [([ascii "ww"], .dir),
                ([ascii "www"], .dir),
                ([ascii "www", ascii "x"], .file (ascii "s") true)] }

/-- A target whose canonical form `/www/x` lies inside the sibling. -/
def connWW : Conn := { request := ascii "GET /../www/x HTTP/1.1\r\n\r\n", writeFails := false }

/-- Root `/d` holding a file the process cannot read. -/
def fsUnread : FS :=
  { cwd := [ascii "d"],
    entries := [([ascii "d"], .dir),
                ([ascii "d", ascii "u.bin"], .file (ascii "x") false)] }

/-- Root `/d` that does contain a `favicon.ico` file. -/
def fsFav : FS :=
  { cwd := [ascii "d"],
    entries := [([ascii "d"], .dir),
                ([ascii "d", ascii "favicon.ico"], .file (ascii "icon") true)] }

/-- `DELETE /favicon.ico`. -/
def connFavDelete : Conn :=
  { request := ascii "DELETE /favicon.ico HTTP/1.1\r\n\r\n", writeFails := false }

/-- `POST /`. -/
def connPost : Conn := { request := ascii "POST / HTTP/1.1\r\n\r\n", writeFails := false }

/-- The listing response for `GET /` against `fsDemo`. -/
def rootListingResp : Response :=
  ⟨ascii "200 OK", ascii "text/html",
    dirListingBody fsDemo (joinPath (renderAbs fsDemo.cwd) []) [ascii "d"]⟩

/-! ## Verification -/

set_option maxRecDepth 400000


theorem hexVal_hexDigitUpper (n : Nat) (h : n < 16) : hexVal (hexDigitUpper n) = some n := by
  simp only [hexVal, hexDigitUpper]
  split_ifs <;> simp_all <;> omega

theorem isAlnumByte_ne_percent {b : Nat} (h : isAlnumByte b = true) : b ≠ 0x25 := by
  simp [isAlnumByte] at h
  omega

theorem percentDecodeF_encode (bs : List Nat) :
    ∀ fuel, (encode_path bs).length ≤ fuel → (∀ b ∈ bs, b < 256) →
      percentDecodeF fuel (encode_path bs) = bs := by
  induction bs with
  | nil =>
    intro fuel _ _
    cases fuel <;> rfl
  | cons b r ih =>
    intro fuel hlen hlt
    have hb : b < 256 := hlt b (by simp)
    have hr : ∀ x ∈ r, x < 256 := fun x hx => hlt x (by simp [hx])
    by_cases ha : isAlnumByte b = true
    · have hne : b ≠ 0x25 := isAlnumByte_ne_percent ha
      simp only [encode_path, encodeByte, if_pos ha, List.singleton_append] at hlen ⊢
      match fuel, hlen with
      | fuel + 1, hlen =>
        rw [percentDecodeF, pdStep.eq_def]
        simp only []
        rw [if_neg hne]
        have := ih fuel (by simp at hlen ⊢; omega) hr
        rw [this]
    · simp only [encode_path, encodeByte, if_neg ha, List.cons_append, List.nil_append]
        at hlen ⊢
      match fuel, hlen with
      | fuel + 1, hlen =>
        rw [percentDecodeF, pdStep.eq_def]
        simp only []
        simp only [if_true]
        rw [hexVal_hexDigitUpper (b / 16) (by omega), hexVal_hexDigitUpper (b % 16) (by omega)]
        simp only []
        rw [Nat.div_add_mod b 16]
        have := ih fuel (by simp at hlen ⊢; omega) hr
        rw [this]

theorem utf8_valid_aux :
    ∀ fuel bs, bs.length ≤ fuel → isValidUTF8F fuel bs = true →
      utf8LossyF fuel bs = bs ∧ ∀ b ∈ bs, b < 256 := by
  intro fuel
  induction fuel with
  | zero =>
    intro bs hlen _
    have hnil : bs = [] := List.eq_nil_of_length_eq_zero (Nat.le_zero.mp hlen)
    subst hnil
    exact ⟨rfl, by simp⟩
  | succ fuel ih =>
    intro bs hlen hv
    match bs with
    | [] => exact ⟨rfl, by simp⟩
    | b :: rest =>
      rw [isValidUTF8F, validStep.eq_def] at hv
      simp only [] at hv
      by_cases h1 : b ≤ 0x7F
      · rw [if_pos h1] at hv
        obtain ⟨e, hb⟩ := ih rest (by simp at hlen; omega) hv
        refine ⟨?_, ?_⟩
        · rw [utf8LossyF, utf8Step.eq_def]
          simp only []
          rw [if_pos h1, e]
        · intro x hx
          rcases List.mem_cons.mp hx with h | h
          · omega
          · exact hb x h
      · rw [if_neg h1] at hv
        by_cases h2 : (0xC2 ≤ b && b ≤ 0xDF) = true
        · rw [if_pos h2] at hv
          have hb' : 0xC2 ≤ b ∧ b ≤ 0xDF := by simpa using h2
          rcases rest with _ | ⟨b2, r2⟩
          · exact absurd hv (by simp)
          · simp only [] at hv
            rw [Bool.and_eq_true] at hv
            obtain ⟨hc, hvr⟩ := hv
            have hc' : 0x80 ≤ b2 ∧ b2 ≤ 0xBF := by simpa [isCont] using hc
            obtain ⟨e, hb⟩ := ih r2 (by simp at hlen ⊢; omega) hvr
            refine ⟨?_, ?_⟩
            · rw [utf8LossyF, utf8Step.eq_def]
              simp only []
              rw [if_neg h1, if_pos h2, if_pos hc, e]
            · intro x hx
              simp only [List.mem_cons] at hx
              rcases hx with h | h | h
              · omega
              · omega
              · exact hb x h
        · rw [if_neg h2] at hv
          by_cases h3 : b = 0xE0
          · rw [if_pos h3] at hv
            rcases rest with _ | ⟨b2, _ | ⟨b3, r3⟩⟩
            · simp only [] at hv; exact absurd hv (by simp)
            · simp only [] at hv; exact absurd hv (by simp)
            · simp only [] at hv
              rw [Bool.and_eq_true, Bool.and_eq_true] at hv
              obtain ⟨⟨hr1, hc3⟩, hvr⟩ := hv
              have hr1' : 0xA0 ≤ b2 ∧ b2 ≤ 0xBF := by simpa using hr1
              have hc3' : 0x80 ≤ b3 ∧ b3 ≤ 0xBF := by simpa [isCont] using hc3
              obtain ⟨e, hb⟩ := ih r3 (by simp at hlen ⊢; omega) hvr
              refine ⟨?_, ?_⟩
              · rw [utf8LossyF, utf8Step.eq_def]
                simp only []
                rw [if_neg h1, if_neg h2, if_pos h3, if_pos hr1, if_pos hc3, e]
              · intro x hx
                simp only [List.mem_cons] at hx
                rcases hx with h | h | h | h
                · omega
                · omega
                · omega
                · exact hb x h
          · rw [if_neg h3] at hv
            by_cases h4 : ((0xE1 ≤ b && b ≤ 0xEC) || (0xEE ≤ b && b ≤ 0xEF)) = true
            · rw [if_pos h4] at hv
              have hb' : (0xE1 ≤ b ∧ b ≤ 0xEC) ∨ (0xEE ≤ b ∧ b ≤ 0xEF) := by simpa using h4
              rcases rest with _ | ⟨b2, _ | ⟨b3, r3⟩⟩
              · simp only [] at hv; exact absurd hv (by simp)
              · simp only [] at hv; exact absurd hv (by simp)
              · simp only [] at hv
                rw [Bool.and_eq_true, Bool.and_eq_true] at hv
                obtain ⟨⟨hc2, hc3⟩, hvr⟩ := hv
                have hc2' : 0x80 ≤ b2 ∧ b2 ≤ 0xBF := by simpa [isCont] using hc2
                have hc3' : 0x80 ≤ b3 ∧ b3 ≤ 0xBF := by simpa [isCont] using hc3
                obtain ⟨e, hb⟩ := ih r3 (by simp at hlen ⊢; omega) hvr
                refine ⟨?_, ?_⟩
                · rw [utf8LossyF, utf8Step.eq_def]
                  simp only []
                  rw [if_neg h1, if_neg h2, if_neg h3, if_pos h4, if_pos hc2, if_pos hc3, e]
                · intro x hx
                  simp only [List.mem_cons] at hx
                  rcases hx with h | h | h | h
                  · omega
                  · omega
                  · omega
                  · exact hb x h
            · rw [if_neg h4] at hv
              by_cases h5 : b = 0xED
              · rw [if_pos h5] at hv
                rcases rest with _ | ⟨b2, _ | ⟨b3, r3⟩⟩
                · simp only [] at hv; exact absurd hv (by simp)
                · simp only [] at hv; exact absurd hv (by simp)
                · simp only [] at hv
                  rw [Bool.and_eq_true, Bool.and_eq_true] at hv
                  obtain ⟨⟨hr1, hc3⟩, hvr⟩ := hv
                  have hr1' : 0x80 ≤ b2 ∧ b2 ≤ 0x9F := by simpa using hr1
                  have hc3' : 0x80 ≤ b3 ∧ b3 ≤ 0xBF := by simpa [isCont] using hc3
                  obtain ⟨e, hb⟩ := ih r3 (by simp at hlen ⊢; omega) hvr
                  refine ⟨?_, ?_⟩
                  · rw [utf8LossyF, utf8Step.eq_def]
                    simp only []
                    rw [if_neg h1, if_neg h2, if_neg h3, if_neg h4, if_pos h5, if_pos hr1, if_pos hc3, e]
                  · intro x hx
                    simp only [List.mem_cons] at hx
                    rcases hx with h | h | h | h
                    · omega
                    · omega
                    · omega
                    · exact hb x h
              · rw [if_neg h5] at hv
                by_cases h6 : b = 0xF0
                · rw [if_pos h6] at hv
                  rcases rest with _ | ⟨b2, _ | ⟨b3, _ | ⟨b4, r4⟩⟩⟩
                  · simp only [] at hv; exact absurd hv (by simp)
                  · simp only [] at hv; exact absurd hv (by simp)
                  · simp only [] at hv; exact absurd hv (by simp)
                  · simp only [] at hv
                    rw [Bool.and_eq_true, Bool.and_eq_true, Bool.and_eq_true] at hv
                    obtain ⟨⟨⟨hr1, hc3⟩, hc4⟩, hvr⟩ := hv
                    have hr1' : 0x90 ≤ b2 ∧ b2 ≤ 0xBF := by simpa using hr1
                    have hc3' : 0x80 ≤ b3 ∧ b3 ≤ 0xBF := by simpa [isCont] using hc3
                    have hc4' : 0x80 ≤ b4 ∧ b4 ≤ 0xBF := by simpa [isCont] using hc4
                    obtain ⟨e, hb⟩ := ih r4 (by simp at hlen ⊢; omega) hvr
                    refine ⟨?_, ?_⟩
                    · rw [utf8LossyF, utf8Step.eq_def]
                      simp only []
                      rw [if_neg h1, if_neg h2, if_neg h3, if_neg h4, if_neg h5, if_pos h6, if_pos hr1, if_pos hc3, if_pos hc4, e]
                    · intro x hx
                      simp only [List.mem_cons] at hx
                      rcases hx with h | h | h | h | h
                      · omega
                      · omega
                      · omega
                      · omega
                      · exact hb x h
                · rw [if_neg h6] at hv
                  by_cases h7 : (0xF1 ≤ b && b ≤ 0xF3) = true
                  · rw [if_pos h7] at hv
                    have hb' : 0xF1 ≤ b ∧ b ≤ 0xF3 := by simpa using h7
                    rcases rest with _ | ⟨b2, _ | ⟨b3, _ | ⟨b4, r4⟩⟩⟩
                    · simp only [] at hv; exact absurd hv (by simp)
                    · simp only [] at hv; exact absurd hv (by simp)
                    · simp only [] at hv; exact absurd hv (by simp)
                    · simp only [] at hv
                      rw [Bool.and_eq_true, Bool.and_eq_true, Bool.and_eq_true] at hv
                      obtain ⟨⟨⟨hc2, hc3⟩, hc4⟩, hvr⟩ := hv
                      have hc2' : 0x80 ≤ b2 ∧ b2 ≤ 0xBF := by simpa [isCont] using hc2
                      have hc3' : 0x80 ≤ b3 ∧ b3 ≤ 0xBF := by simpa [isCont] using hc3
                      have hc4' : 0x80 ≤ b4 ∧ b4 ≤ 0xBF := by simpa [isCont] using hc4
                      obtain ⟨e, hb⟩ := ih r4 (by simp at hlen ⊢; omega) hvr
                      refine ⟨?_, ?_⟩
                      · rw [utf8LossyF, utf8Step.eq_def]
                        simp only []
                        rw [if_neg h1, if_neg h2, if_neg h3, if_neg h4, if_neg h5,
                          if_neg h6, if_pos h7, if_pos hc2, if_pos hc3, if_pos hc4, e]
                      · intro x hx
                        simp only [List.mem_cons] at hx
                        rcases hx with h | h | h | h | h
                        · omega
                        · omega
                        · omega
                        · omega
                        · exact hb x h
                  · rw [if_neg h7] at hv
                    by_cases h8 : b = 0xF4
                    · rw [if_pos h8] at hv
                      rcases rest with _ | ⟨b2, _ | ⟨b3, _ | ⟨b4, r4⟩⟩⟩
                      · simp only [] at hv; exact absurd hv (by simp)
                      · simp only [] at hv; exact absurd hv (by simp)
                      · simp only [] at hv; exact absurd hv (by simp)
                      · simp only [] at hv
                        rw [Bool.and_eq_true, Bool.and_eq_true, Bool.and_eq_true] at hv
                        obtain ⟨⟨⟨hr1, hc3⟩, hc4⟩, hvr⟩ := hv
                        have hr1' : 0x80 ≤ b2 ∧ b2 ≤ 0x8F := by simpa using hr1
                        have hc3' : 0x80 ≤ b3 ∧ b3 ≤ 0xBF := by simpa [isCont] using hc3
                        have hc4' : 0x80 ≤ b4 ∧ b4 ≤ 0xBF := by simpa [isCont] using hc4
                        obtain ⟨e, hb⟩ := ih r4 (by simp at hlen ⊢; omega) hvr
                        refine ⟨?_, ?_⟩
                        · rw [utf8LossyF, utf8Step.eq_def]
                          simp only []
                          rw [if_neg h1, if_neg h2, if_neg h3, if_neg h4, if_neg h5,
                            if_neg h6, if_neg h7, if_pos h8, if_pos hr1, if_pos hc3, if_pos hc4, e]
                        · intro x hx
                          simp only [List.mem_cons] at hx
                          rcases hx with h | h | h | h | h
                          · omega
                          · omega
                          · omega
                          · omega
                          · exact hb x h
                    · rw [if_neg h8] at hv
                      exact absurd hv (by simp)


/-- C4: for every valid text string (a valid UTF-8 byte sequence `bs`),
percent-encoding at the byte level with `encode_path` and percent-decoding
with `decode_url_encoded` yields the original string, including for
multi-byte text. -/
theorem decode_encode_roundtrip (bs : List Nat) (h : isValidUTF8 bs = true) :
    decode_url_encoded (encode_path bs) = bs := by
  rw [isValidUTF8] at h
  have hb : ∀ b ∈ bs, b < 256 := (utf8_valid_aux bs.length bs le_rfl h).2
  have h1 : percentDecode (encode_path bs) = bs := by
    rw [percentDecode]
    exact percentDecodeF_encode bs _ le_rfl hb
  rw [decode_url_encoded, h1, utf8Lossy]
  exact (utf8_valid_aux bs.length bs le_rfl h).1

/-- Witness for C4 at the two-byte (non-ASCII) string `"é/a"`. -/
theorem decode_encode_roundtrip_witness :
    isValidUTF8 [0xC3, 0xA9, 0x2F, 0x61] = true ∧
      decode_url_encoded (encode_path [0xC3, 0xA9, 0x2F, 0x61]) = [0xC3, 0xA9, 0x2F, 0x61] :=
  ⟨by decide, decode_encode_roundtrip [0xC3, 0xA9, 0x2F, 0x61] (by decide)⟩



/-! ## Generic facts about the connection handler -/

/-- A delivered response is the one passed to `respond`. -/
theorem respond_ok_inv {conn : Conn} {r resp : Response}
    (h : respond conn r = .ok resp) : resp = r := by
  unfold respond at h
  split at h
  · cases h
  · cases h
    rfl

/-- On a healthy stream, `respond` delivers its response. -/
theorem respond_of_writeOk {conn : Conn} (h : conn.writeFails = false) (r : Response) :
    respond conn r = .ok r := by
  simp [respond, h]

/-- Bool-level prefix bridge. -/
theorem isPrefixOf_eq_true_iff {α : Type} [BEq α] [LawfulBEq α] (l₁ l₂ : List α) :
    l₁.isPrefixOf l₂ = true ↔ l₁ <+: l₂ := List.isPrefixOf_iff_prefix

/-- The favicon branch fires before anything else and ignores the
filesystem. -/
theorem handle_favicon (fs : FS) (conn : Conn)
    (hfav : targetOf conn.request = faviconPath) :
    handle_connection fs conn = respond conn notFoundResp := by
  simp only [handle_connection, if_pos hfav]

/-- The method check fires before any filesystem access. -/
theorem handle_non_get_aux (fs : FS) (conn : Conn)
    (hfav : targetOf conn.request ≠ faviconPath)
    (hm : methodOf conn.request ≠ ascii "GET") :
    handle_connection fs conn = respond conn methodNotAllowedResp := by
  simp only [handle_connection, if_neg hfav, if_pos hm]

/-- A GET whose resolved candidate fails the containment check is answered
with the 403 response. -/
theorem handle_forbidden_aux (fs : FS) (conn : Conn) (res : List Nat)
    (hfav : targetOf conn.request ≠ faviconPath)
    (hm : methodOf conn.request = ascii "GET")
    (hres : resourceOf conn.request = some res)
    (hw : isPathWithin fs (joinPath (renderAbs fs.cwd) res) = some false) :
    handle_connection fs conn = respond conn forbiddenResp := by
  have hm' : ¬ methodOf conn.request ≠ ascii "GET" := fun hne => hne hm
  simp only [handle_connection, if_neg hfav, if_neg hm', hres, hw]

/-- A GET whose candidate cannot be canonicalized propagates the io error
out of the handler. -/
theorem handle_ioErr_aux (fs : FS) (conn : Conn) (res : List Nat)
    (hfav : targetOf conn.request ≠ faviconPath)
    (hm : methodOf conn.request = ascii "GET")
    (hres : resourceOf conn.request = some res)
    (hw : isPathWithin fs (joinPath (renderAbs fs.cwd) res) = none) :
    handle_connection fs conn = .ioErr := by
  have hm' : ¬ methodOf conn.request ≠ ascii "GET" := fun hne => hne hm
  simp only [handle_connection, if_neg hfav, if_neg hm', hres, hw]

/-- A GET whose decoded target is empty panics on `&decoded_path[1..]`. -/
theorem handle_empty_target_aux (fs : FS) (conn : Conn)
    (hm : methodOf conn.request = ascii "GET")
    (ht : targetOf conn.request = []) :
    handle_connection fs conn = .panicked := by
  have hfav : targetOf conn.request ≠ faviconPath := by
    rw [ht]
    decide
  have hm' : ¬ methodOf conn.request ≠ ascii "GET" := fun hne => hne hm
  have hres : resourceOf conn.request = none := by
    rw [resourceOf, decodedTargetOf, ht]
    rfl
  simp only [handle_connection, if_neg hfav, if_neg hm', hres]

/-- Any 200 response arises only after the containment check succeeded on
the canonicalized candidate. -/
theorem handle_ok200_contained (fs : FS) (conn : Conn) (resp : Response)
    (h : handle_connection fs conn = .ok resp)
    (hs : resp.status = ascii "200 OK") :
    ∃ res c, resourceOf conn.request = some res ∧
      canonicalizeStr fs (joinPath (renderAbs fs.cwd) res) = some c ∧
      fs.cwd.isPrefixOf c = true := by
  unfold handle_connection at h
  by_cases hfav : targetOf conn.request = faviconPath
  · rw [if_pos hfav] at h
    have := respond_ok_inv h
    subst this
    exact absurd hs (by decide)
  · rw [if_neg hfav] at h
    by_cases hm : methodOf conn.request ≠ ascii "GET"
    · rw [if_pos hm] at h
      have := respond_ok_inv h
      subst this
      exact absurd hs (by decide)
    · rw [if_neg hm] at h
      cases hres : resourceOf conn.request with
      | none =>
        rw [hres] at h
        simp at h
      | some res =>
        rw [hres] at h
        simp only [] at h
        cases hw : isPathWithin fs (joinPath (renderAbs fs.cwd) res) with
        | none =>
          rw [hw] at h
          simp at h
        | some b =>
          rw [hw] at h
          cases b with
          | false =>
            simp only [] at h
            have := respond_ok_inv h
            subst this
            exact absurd hs (by decide)
          | true =>
            rw [isPathWithin] at hw
            obtain ⟨c, hc, hpc⟩ := Option.map_eq_some'.mp hw
            exact ⟨res, c, rfl, hc, hpc⟩

/-! ## The claims -/

/-- C1: path resolution canonicalizes the candidate before the containment
check and never yields a path outside the root: a candidate that fails to
canonicalize surfaces as the `NotFound` io error; a canonical candidate
not nested under the root is answered `403 Forbidden`; and every `200 OK`
response was preceded by a successful containment check of the
canonicalized candidate against the root. -/
theorem sandbox_containment :
    (∀ (fs : FS) (conn : Conn) (res : List Nat),
        targetOf conn.request ≠ faviconPath →
        methodOf conn.request = ascii "GET" →
        resourceOf conn.request = some res →
        canonicalizeStr fs (joinPath (renderAbs fs.cwd) res) = none →
        handle_connection fs conn = .ioErr)
    ∧ (∀ (fs : FS) (conn : Conn) (res : List Nat) (c : List Name),
        conn.writeFails = false →
        targetOf conn.request ≠ faviconPath →
        methodOf conn.request = ascii "GET" →
        resourceOf conn.request = some res →
        canonicalizeStr fs (joinPath (renderAbs fs.cwd) res) = some c →
        fs.cwd.isPrefixOf c = false →
        handle_connection fs conn = .ok forbiddenResp)
    ∧ (∀ (fs : FS) (conn : Conn) (resp : Response),
        handle_connection fs conn = .ok resp →
        resp.status = ascii "200 OK" →
        ∃ res c, resourceOf conn.request = some res ∧
          canonicalizeStr fs (joinPath (renderAbs fs.cwd) res) = some c ∧
          fs.cwd.isPrefixOf c = true) := by
  refine ⟨?_, ?_, ?_⟩
  · intro fs conn res hfav hm hres hcanon
    have hw : isPathWithin fs (joinPath (renderAbs fs.cwd) res) = none := by
      rw [isPathWithin, hcanon]
      rfl
    exact handle_ioErr_aux fs conn res hfav hm hres hw
  · intro fs conn res c hwf hfav hm hres hcanon hpf
    have hw : isPathWithin fs (joinPath (renderAbs fs.cwd) res) = some false := by
      rw [isPathWithin, hcanon, Option.map_some', hpf]
    rw [handle_forbidden_aux fs conn res hfav hm hres hw]
    exact respond_of_writeOk hwf _
  · exact handle_ok200_contained

/-- Witness for C1: against root `/d`, the traversal target `/../e/x`
(canonical form `/e/x`, outside the root) is answered `403 Forbidden`, and
the traversal target `/../../etc/passwd` (nonexistent) makes resolution
fail with the `NotFound` io error. -/
theorem sandbox_containment_witness :
    handle_connection fsTrav connTravOut = .ok forbiddenResp ∧
      handle_connection fsTrav connTravMissing = .ioErr :=
  ⟨sandbox_containment.2.1 fsTrav connTravOut (ascii "../e/x") [ascii "e", ascii "x"]
      (by decide) (by decide) (by decide) (by decide) (by decide) (by decide),
    sandbox_containment.1 fsTrav connTravMissing (ascii "../../etc/passwd")
      (by decide) (by decide) (by decide) (by decide)⟩

/-- C2 (code bug): a GET for a path with no filesystem entry does not get
a `404 Not Found` response; `canonicalize` fails with `NotFound`, the `?`
in `handle_connection` propagates it, and the `?` in `main` ends the
accept loop: the connection gets no response and the process exits. -/
theorem missing_file_crashes :
    handle_connection fsDemo connMissing = .ioErr ∧
      serveLoop fsDemo [connMissing, connRootOk] = ([], some .ioError) := by
  exact ⟨by decide, by decide⟩

/-- C3 counterexample: a network write failure on one connection is not
connection-local — it propagates through `handle_connection(stream)?` and
terminates the listening loop, so the next connection is never served. -/
theorem write_failure_kills_listener :
    serveLoop fsDemo [connRootWriteFail, connRootOk] = ([], some .ioError) := by
  decide

/-- C3 amended: only a file-read failure is connection-local (answered
locally with `500 Internal Server Error`); a successfully answered
connection lets the loop continue, but any handler io error (resolution
failure, enumeration failure, network write failure) terminates the
listening process and later connections are not accepted. -/
theorem error_locality_amended :
    (∀ (fs : FS) (conn : Conn) (r : Response) (rest : List Conn),
        handle_connection fs conn = .ok r →
        serveLoop fs (conn :: rest) = (r :: (serveLoop fs rest).1, (serveLoop fs rest).2))
    ∧ (∀ (fs : FS) (conn : Conn) (rest : List Conn),
        handle_connection fs conn = .ioErr →
        serveLoop fs (conn :: rest) = ([], some .ioError))
    ∧ (∀ (fs : FS) (conn : Conn) (p : List Nat),
        conn.writeFails = false →
        fsRead fs p = none →
        send_file_content fs conn p = .ok internalErrorResp) := by
  refine ⟨?_, ?_, ?_⟩
  · intro fs conn r rest h
    simp only [serveLoop, h]
  · intro fs conn rest h
    simp only [serveLoop, h]
  · intro fs conn p hwf hr
    simp only [send_file_content, hr]
    exact respond_of_writeOk hwf _

/-- Witness for C3 (amended): a served connection continues the loop, a
crashed one ends it, and an unreadable file is answered with 500. -/
theorem error_locality_amended_witness :
    serveLoop fsDemo [connRootOk, connMissing]
        = (rootListingResp :: (serveLoop fsDemo [connMissing]).1,
           (serveLoop fsDemo [connMissing]).2)
      ∧ serveLoop fsDemo [connMissing, connRootOk] = ([], some .ioError)
      ∧ send_file_content fsUnread connRootOk (ascii "/d/u.bin") = .ok internalErrorResp :=
  ⟨error_locality_amended.1 fsDemo connRootOk rootListingResp [connMissing] (by decide),
    error_locality_amended.2.1 fsDemo connMissing [connRootOk] (by decide),
    error_locality_amended.2.2 fsUnread connRootOk (ascii "/d/u.bin") (by decide) (by decide)⟩

/-- C5 counterexample: a malformed request whose first line is empty
parses to an empty method and empty target, and is answered
`405 Method Not Allowed`, not `404 Not Found`. -/
theorem malformed_request_gets_405_not_404 :
    handle_connection fsDemo connEmptyLine = .ok methodNotAllowedResp ∧
      methodNotAllowedResp ≠ notFoundResp := by
  exact ⟨by decide, by decide⟩

/-- C5 amended: a malformed request whose parsed method is empty (or any
token other than `GET`) is answered `405 Method Not Allowed`, while a
request parsing to method `GET` with an empty target makes the handler
panic on the string slice `&decoded_path[1..]` instead of responding. -/
theorem malformed_request_amended :
    (∀ (fs : FS) (conn : Conn),
        targetOf conn.request ≠ faviconPath →
        methodOf conn.request ≠ ascii "GET" →
        conn.writeFails = false →
        handle_connection fs conn = .ok methodNotAllowedResp)
    ∧ (∀ (fs : FS) (conn : Conn),
        methodOf conn.request = ascii "GET" →
        targetOf conn.request = [] →
        handle_connection fs conn = .panicked) := by
  constructor
  · intro fs conn hfav hm hwf
    rw [handle_non_get_aux fs conn hfav hm]
    exact respond_of_writeOk hwf _
  · exact handle_empty_target_aux

/-- Witness for C5 (amended) at the empty request line and at `GET`
without a target. -/
theorem malformed_request_amended_witness :
    handle_connection fsDemo connEmptyLine = .ok methodNotAllowedResp ∧
      handle_connection fsDemo connBareGet = .panicked :=
  ⟨malformed_request_amended.1 fsDemo connEmptyLine (by decide) (by decide) (by decide),
    malformed_request_amended.2 fsDemo connBareGet (by decide) (by decide)⟩

/-- C6 (code bug): an absent target is not handled without exception —
the empty decoded target reaches `&decoded_path[1..]`, whose byte index 1
is out of bounds, and the handler panics instead of stripping a separator
and producing a response. -/
theorem empty_target_panics :
    handle_connection fsDemo connBareGet = .panicked := by
  decide

/-- C7: a request whose raw target is `/favicon.ico` is answered
`404 Not Found` before path resolution, for every method and independently
of the filesystem (in particular whether a favicon file exists). -/
theorem favicon_always_404 :
    ∀ (fs fs' : FS) (conn : Conn),
      targetOf conn.request = faviconPath →
      (conn.writeFails = false → handle_connection fs conn = .ok notFoundResp)
      ∧ handle_connection fs conn = handle_connection fs' conn := by
  intro fs fs' conn hfav
  constructor
  · intro hwf
    rw [handle_favicon fs conn hfav]
    exact respond_of_writeOk hwf _
  · rw [handle_favicon fs conn hfav, handle_favicon fs' conn hfav]

/-- Witness for C7: `DELETE /favicon.ico` gets 404 on a root that does
contain a favicon file, and the outcome is the same on a root without
one. -/
theorem favicon_always_404_witness :
    handle_connection fsFav connFavDelete = .ok notFoundResp ∧
      handle_connection fsFav connFavDelete = handle_connection fsDemo connFavDelete :=
  ⟨(favicon_always_404 fsFav fsDemo connFavDelete (by decide)).1 (by decide),
    (favicon_always_404 fsFav fsDemo connFavDelete (by decide)).2⟩

/-- C8: a request whose method is not `GET` (and whose target is not the
favicon path) is answered `405 Method Not Allowed`, independently of the
filesystem — no filesystem access is performed. -/
theorem non_get_rejected :
    ∀ (fs fs' : FS) (conn : Conn),
      targetOf conn.request ≠ faviconPath →
      methodOf conn.request ≠ ascii "GET" →
      (conn.writeFails = false → handle_connection fs conn = .ok methodNotAllowedResp)
      ∧ handle_connection fs conn = handle_connection fs' conn := by
  intro fs fs' conn hfav hm
  constructor
  · intro hwf
    rw [handle_non_get_aux fs conn hfav hm]
    exact respond_of_writeOk hwf _
  · rw [handle_non_get_aux fs conn hfav hm, handle_non_get_aux fs' conn hfav hm]

/-- Witness for C8: `POST /` is answered 405, with the same outcome on two
different filesystems. -/
theorem non_get_rejected_witness :
    handle_connection fsDemo connPost = .ok methodNotAllowedResp ∧
      handle_connection fsDemo connPost = handle_connection fsTrav connPost :=
  ⟨(non_get_rejected fsDemo fsTrav connPost (by decide) (by decide)).1 (by decide),
    (non_get_rejected fsDemo fsTrav connPost (by decide) (by decide)).2⟩

/-- C9: `GET /` on a root holding the file `a.txt` and the subdirectory
`b` is answered `200 OK` with an HTML body containing an anchor to
`a.txt` (href percent-encoded per non-alphanumeric byte, no trailing
slash) and an anchor to `b` with a trailing slash on both the href and the
label. -/
theorem root_listing_anchors :
    ∃ resp : Response, handle_connection fsDemo connRootOk = .ok resp ∧
      resp.status = ascii "200 OK" ∧
      (ascii "<a href=\"a%2Etxt\">a.txt</a><br>") <:+: resp.body ∧
      (ascii "<a href=\"b/\">b/</a><br>") <:+: resp.body := by
  refine ⟨rootListingResp, by decide, by decide, by decide, by decide⟩

/-- C10: the containment check compares whole path components, not string
prefixes: when the root is `r/d` and the canonical candidate lies under a
sibling `r/d'` whose name merely extends `d` as a byte string, the request
is rejected with `403 Forbidden`. -/
theorem containment_componentwise :
    ∀ (fs : FS) (conn : Conn) (res : List Nat) (c : List Name)
      (r : List Name) (d d' : Name) (t : List Name),
      conn.writeFails = false →
      targetOf conn.request ≠ faviconPath →
      methodOf conn.request = ascii "GET" →
      resourceOf conn.request = some res →
      canonicalizeStr fs (joinPath (renderAbs fs.cwd) res) = some c →
      fs.cwd = r ++ [d] →
      c = r ++ d' :: t →
      d.isPrefixOf d' = true →
      d ≠ d' →
      handle_connection fs conn = .ok forbiddenResp := by
  intro fs conn res c r d d' t hwf hfav hm hres hcanon hcwd hc hext hdne
  have hnp : ¬ fs.cwd <+: c := by
    rw [hcwd, hc]
    intro hpre
    rw [List.prefix_append_right_inj] at hpre
    rw [List.cons_prefix_cons] at hpre
    exact hdne hpre.1
  have hpf : fs.cwd.isPrefixOf c = false := by
    cases hb : fs.cwd.isPrefixOf c
    · rfl
    · exact absurd ((isPrefixOf_eq_true_iff _ _).mp hb) hnp
  have hw : isPathWithin fs (joinPath (renderAbs fs.cwd) res) = some false := by
    rw [isPathWithin, hcanon, Option.map_some', hpf]
  rw [handle_forbidden_aux fs conn res hfav hm hres hw]
  exact respond_of_writeOk hwf _

/-- Witness for C10: root `/ww`, candidate `/../www/x` with canonical form
`/www/x` inside the sibling `/www` whose name extends `ww`; the request is
rejected. -/
theorem containment_componentwise_witness :
    handle_connection fsWW connWW = .ok forbiddenResp :=
  containment_componentwise fsWW connWW (ascii "../www/x")
    [ascii "www", ascii "x"] [] (ascii "ww") (ascii "www") [ascii "x"]
    (by decide) (by decide) (by decide) (by decide) (by decide) (by decide)
    (by decide) (by decide) (by decide)

end Bounty
